import Mathlib

/-
Verification of the bb-mesh-service core pipeline: byte-level nonce
construction and multi-key decryption (crypto/decrypt.py), position
heading bucketing and telemetry power extraction (decoder/packet_decoder.py),
the shortname admission filter (filters/node_filter.py), the node-state
cache merge (datastore/client.py), and the telemetry storage decision
(processor.py). Bytes are modelled as natural numbers below 256, byte
strings as lists, Python dicts and sets as functions, floats as rationals,
and the external AES-CTR primitive as an abstract cipher parameter.
-/

/-! ## Little-endian byte encoding (Python int.to_bytes(n, "little")) -/

def toBytesLE : Nat → Nat → List Nat
  | 0, _ => []
  | n + 1, x => (x % 256) :: toBytesLE n (x / 256)

def fromBytesLE : List Nat → Nat
  | [] => 0
  | b :: bs => b + 256 * fromBytesLE bs

theorem toBytesLE_length (n x : Nat) : (toBytesLE n x).length = n := by
  induction n generalizing x with
  | zero => rfl
  | succ n ih => simp [toBytesLE, ih]

theorem fromBytesLE_toBytesLE (n x : Nat) (h : x < 256 ^ n) :
    fromBytesLE (toBytesLE n x) = x := by
  induction n generalizing x with
  | zero =>
    simp [toBytesLE, fromBytesLE]
    omega
  | succ n ih =>
    have hdiv : x / 256 < 256 ^ n := by
      rw [Nat.div_lt_iff_lt_mul (by norm_num)]
      calc x < 256 ^ (n + 1) := h
        _ = 256 ^ n * 256 := by ring
    simp [toBytesLE, fromBytesLE, ih _ hdiv]
    omega

/-! ## Crypto: decrypt.py

The AES-CTR block cipher comes from an external library
(cryptography.hazmat); it is modelled as an abstract operation mapping
(key, nonce, data) to an output byte string. All control flow around it
is translated from decrypt_meshtastic_packet and
MeshtasticDecryptor.try_decrypt. -/

structure CipherOps where
  aesCtr : List Nat → List Nat → List Nat → List Nat

/-- Nonce for a 16-byte key (decrypt.py lines 36-40): packet_id as 8
little-endian bytes followed by from_node as 8 little-endian bytes. -/
def nonce16 (packet_id from_node : Nat) : List Nat :=
  toBytesLE 8 packet_id ++ toBytesLE 8 from_node

/-- Nonce for a 32-byte key (decrypt.py line 44): packet_id and from_node
packed as two little-endian 32-bit integers plus 8 zero bytes. -/
def nonce32 (packet_id from_node : Nat) : List Nat :=
  toBytesLE 4 packet_id ++ toBytesLE 4 from_node ++ List.replicate 8 0

/-- Translation of decrypt_meshtastic_packet (decrypt.py lines 18-70).
A raised DecryptionError becomes an error value. Python int.to_bytes and
struct.pack overflow when the integers exceed the field width; those
branches carry the corresponding bound checks. -/
def decrypt_meshtastic_packet (ops : CipherOps) (key : List Nat)
    (encrypted_data : List Nat) (packet_id from_node : Nat) :
    Except String (List Nat) :=
  if key.length = 16 then
    if packet_id < 2 ^ 64 ∧ from_node < 2 ^ 64 then
      Except.ok (ops.aesCtr key (nonce16 packet_id from_node) encrypted_data)
    else Except.error "Decryption failed: int too big to convert"
  else if key.length = 32 then
    if packet_id < 2 ^ 32 ∧ from_node < 2 ^ 32 then
      Except.ok (ops.aesCtr key (nonce32 packet_id from_node) encrypted_data)
    else Except.error "Decryption failed: argument out of range"
  else if key.length = 1 then
    Except.ok (encrypted_data.map fun b => b ^^^ key.headI)
  else
    Except.error "Unsupported key length"

/-- Translation of MeshtasticDecryptor.try_decrypt (decrypt.py lines
89-119): try each key in order; on DecryptionError continue silently; a
non-empty result is accepted; None when every key fails. -/
def try_decrypt (ops : CipherOps) (keys : List (List Nat))
    (encrypted_data : List Nat) (packet_id from_node : Nat) :
    Option (List Nat) :=
  match keys with
  | [] => none
  | k :: rest =>
    match decrypt_meshtastic_packet ops k encrypted_data packet_id from_node with
    | Except.ok d =>
      if d.length > 0 then some d
      else try_decrypt ops rest encrypted_data packet_id from_node
    | Except.error _ => try_decrypt ops rest encrypted_data packet_id from_node

/-! ## Decoder: packet_decoder.py -/

/-- The 16-entry compass table (packet_decoder.py lines 234-235). -/
def directions : List String :=
  ["N", "NNE", "NE", "ENE", "E", "ESE", "SE", "SSE",
   "S", "SSW", "SW", "WSW", "W", "WNW", "NW", "NNW"]

/-- Heading part of format_position_data (packet_decoder.py lines
232-241): when ground_track > 0, heading in degrees is ground_track /
1e5, and the compass direction indexes the 16-entry table at
int((heading + 11.25) / 22.5) % 16, truncating toward zero; floats are
modelled as exact rationals. -/
def headingInfo (ground_track : Nat) : Option (ℚ × String) :=
  if 0 < ground_track then
    let heading : ℚ := (ground_track : ℚ) / 100000
    let dir_index : Nat := (Int.toNat ⌊(heading + 45 / 4) / (45 / 2)⌋) % 16
    some (heading, directions.getD dir_index "")
  else
    none

/-- Modelled from the spec wording of the C2 claim alone: the compass
bucket index computed with rounding, round((degrees + 11.25) / 22.5) mod
16, for comparison against the implementation. -/
def headingIndexSpec (degrees : ℚ) : Nat :=
  (Int.toNat (round ((degrees + 45 / 4) / (45 / 2)))) % 16

structure PowerMetrics where
  ch1_voltage : Option ℚ
  ch2_voltage : Option ℚ
deriving DecidableEq

structure Telemetry where
  power_metrics : Option PowerMetrics
deriving DecidableEq

/-- Translation of PacketDecoder.extract_power_metrics (packet_decoder.py
lines 150-174): ch1 voltage verbatim, ch2 voltage times 100 as the
battery percent; both absent when there are no power metrics. -/
def extract_power_metrics (t : Telemetry) : Option ℚ × Option ℚ :=
  match t.power_metrics with
  | none => (none, none)
  | some pm => (pm.ch1_voltage, pm.ch2_voltage.map fun v => v * 100)

/-! ## Node filter: node_filter.py

The dict node_shortnames and the set allowed_nodes are modelled as
functions; the compiled shortname regex is modelled as an abstract
predicate on strings (regex.search of a fixed compiled pattern is a
deterministic function of the shortname). -/

structure NodeFilter where
  matchesPattern : String → Bool
  node_shortnames : Nat → Option String
  allowed_nodes : Nat → Bool

/-- NodeFilter.__init__ (node_filter.py lines 15-26): empty shortname map
and empty allowed set. -/
def initFilter (m : String → Bool) : NodeFilter :=
  ⟨m, fun _ => none, fun _ => false⟩

/-- Translation of NodeFilter.update_node_shortname (node_filter.py lines
28-48): record the shortname, then add the node to the allowed set when
the pattern matches and discard it otherwise; returns the match result. -/
def update_node_shortname (f : NodeFilter) (node_id : Nat)
    (shortname : String) : NodeFilter × Bool :=
  (⟨f.matchesPattern,
    fun j => if j = node_id then some shortname else f.node_shortnames j,
    fun j => if j = node_id then f.matchesPattern shortname else f.allowed_nodes j⟩,
   f.matchesPattern shortname)

/-- Translation of NodeFilter.is_node_allowed (node_filter.py lines 50-60). -/
def is_node_allowed (f : NodeFilter) (node_id : Nat) : Bool :=
  f.allowed_nodes node_id

/-- PortNum.NODEINFO_APP from the meshtastic protobuf. -/
def NODEINFO_APP : Nat := 4

/-- The payload_variant oneof of a MeshPacket: decoded, encrypted, or
unset (WhichOneof returns None). -/
inductive PayloadVariant where
  | decoded (portnum : Nat) (payload : List Nat)
  | encrypted (ciphertext : List Nat)
  | unset
deriving DecidableEq

structure MeshPacket where
  fromNode : Nat
  packetId : Nat
  variant : PayloadVariant
deriving DecidableEq

/-- Translation of NodeFilter.should_process_packet (node_filter.py lines
74-118): decoded NODEINFO packets always pass; other decoded packets pass
only for an allowed sender; encrypted packets always pass; an unset
variant is rejected. -/
def should_process_packet (f : NodeFilter) (p : MeshPacket) : Bool :=
  match p.variant with
  | PayloadVariant.decoded portnum _ =>
    if portnum = NODEINFO_APP then true
    else is_node_allowed f p.fromNode
  | PayloadVariant.encrypted _ => true
  | PayloadVariant.unset => false

/-- Applies a sequence of update_node_shortname calls in order. -/
def applyUpdates (f : NodeFilter) (us : List (Nat × String)) : NodeFilter :=
  us.foldl (fun g u => (update_node_shortname g u.1 u.2).1) f

/-- The C6 state invariant: the allowed set is contained in the keys of
the shortname map, and membership is equivalent to the recorded
shortname matching the pattern. -/
def FilterInvariant (f : NodeFilter) : Prop :=
  ∀ id : Nat,
    (f.allowed_nodes id = true → (f.node_shortnames id).isSome = true) ∧
    (f.allowed_nodes id = true ↔
      ∃ s, f.node_shortnames id = some s ∧ f.matchesPattern s = true)

/-! ## Datastore: client.py

The per-node cached record (client.py lines 142-153), the merge policy of
store_node (lines 157-179), and the availability / write-through control
flow (lines 133-135 and 181-217). Timestamps are abstract natural-number
clock values supplied by the caller; float fields are rationals; the
external Datastore put is modelled by a boolean outcome (True when the
put succeeds, False when it raises and the except block at line 215
swallows the exception). -/

structure NodeRecord where
  node_id : Nat
  shortname : Option String
  longname : Option String
  latitude : Option ℚ
  longitude : Option ℚ
  last_known_voltage : Option ℚ
  last_known_battery_percent : Option ℚ
  last_seen_battery : Option Nat
  last_seen_location : Option Nat
  last_seen : Option Nat
deriving DecidableEq

/-- Fresh cache entry with every field absent (client.py lines 142-153). -/
def emptyRecord (id : Nat) : NodeRecord :=
  ⟨id, none, none, none, none, none, none, none, none, none⟩

/-- The optional keyword arguments of store_node (client.py lines 112-116). -/
structure StoreArgs where
  shortname : Option String
  longname : Option String
  latitude : Option ℚ
  longitude : Option ℚ
  voltage : Option ℚ
  battery_percent : Option ℚ
  timestamp_type : Option String
deriving DecidableEq

/-- A single field update of store_node: take the incoming value when it
is present, keep the old value when it is absent (client.py lines
157-169). -/
def mergeField {α : Type} (old new : Option α) : Option α :=
  match new with
  | some v => some v
  | none => old

/-- The in-place cache mutation performed by one store_node call on one
record (client.py lines 157-179): merge each provided field, then stamp
exactly one timestamp chosen by timestamp_type. -/
def mergeRecord (old : NodeRecord) (a : StoreArgs) (now : Nat) : NodeRecord :=
  { old with
    shortname := mergeField old.shortname a.shortname
    longname := mergeField old.longname a.longname
    latitude := mergeField old.latitude a.latitude
    longitude := mergeField old.longitude a.longitude
    last_known_voltage := mergeField old.last_known_voltage a.voltage
    last_known_battery_percent :=
      mergeField old.last_known_battery_percent a.battery_percent
    last_seen_battery :=
      if a.timestamp_type = some "battery" then some now
      else old.last_seen_battery
    last_seen_location :=
      if a.timestamp_type = some "battery" then old.last_seen_location
      else if a.timestamp_type = some "location" then some now
      else old.last_seen_location
    last_seen :=
      if a.timestamp_type = some "battery" then old.last_seen
      else if a.timestamp_type = some "location" then old.last_seen
      else some now }

/-- MeshDatastore state: whether the Datastore client initialised
(client.py lines 25-59) and the in-memory node cache. -/
structure DS where
  available : Bool
  cache : Nat → Option NodeRecord

/-- The cache entry for a node, or a fresh empty record when the node is
absent (client.py lines 141-155). -/
def getRecord (s : DS) (id : Nat) : NodeRecord :=
  (s.cache id).getD (emptyRecord id)

/-- Translation of MeshDatastore.store_node (client.py lines 112-217).
When the client is unavailable the call returns False without touching
the cache (lines 133-135). Otherwise the cache entry is merged in place
before the entity write; a failing put is caught at line 215 and
surfaces only as the False return value, leaving the already-updated
cache in place. -/
def store_node (s : DS) (node_id : Nat) (a : StoreArgs) (now : Nat)
    (putOk : Bool) : DS × Bool :=
  if s.available then
    let merged := mergeRecord (getRecord s node_id) a now
    (⟨s.available, fun j => if j = node_id then some merged else s.cache j⟩,
     putOk)
  else
    (s, false)

/-- One store_node call in a replayed sequence: arguments, clock value,
and the outcome of the external put. -/
structure StoreCall where
  args : StoreArgs
  now : Nat
  putOk : Bool
deriving DecidableEq

/-- Applies a sequence of store_node calls for one node in order. -/
def applyCalls (s : DS) (id : Nat) (cs : List StoreCall) : DS :=
  cs.foldl (fun t c => (store_node t id c.args c.now c.putOk).1) s

/-- The last present value in a sequence of optional field values. -/
def lastSupplied {α : Type} (l : List (Option α)) : Option α :=
  l.foldl mergeField none

/-! ## Processor: processor.py -/

/-- Translation of MeshProcessor.handle_telemetry storage decision
(processor.py lines 196-220): extract power metrics, then store them
(with timestamp_type battery) only when the sender is allowed and the
extracted voltage is present and exceeds 20.0; returns the store_node
arguments, or none when nothing is stored. -/
def handle_telemetry (f : NodeFilter) (from_node : Nat) (t : Telemetry) :
    Option StoreArgs :=
  let vb := extract_power_metrics t
  if is_node_allowed f from_node = false then none
  else
    match vb.1 with
    | some v =>
      if v > 20 then some ⟨none, none, none, none, some v, vb.2, some "battery"⟩
      else none
    | none => none

/-! ## Helper lemmas on the merge policy -/

theorem mergeField_mergeField {α : Type} (x a y : Option α) :
    mergeField (mergeField x a) y
      = mergeField x (mergeField (mergeField none a) y) := by
  cases y <;> cases a <;> rfl

theorem foldl_mergeField {α : Type} (init : Option α) (l : List (Option α)) :
    l.foldl mergeField init = mergeField init (lastSupplied l) := by
  induction l generalizing init with
  | nil => rfl
  | cons a l ih =>
    show List.foldl mergeField (mergeField init a) l = _
    rw [ih]
    have h2 : lastSupplied (a :: l)
        = mergeField (mergeField none a) (lastSupplied l) := by
      show List.foldl mergeField (mergeField none a) l = _
      rw [ih]
    rw [h2, mergeField_mergeField]

theorem store_node_step (s : DS) (id : Nat) (a : StoreArgs) (now : Nat)
    (p : Bool) (h : s.available = true) :
    (store_node s id a now p).1.available = true ∧
    getRecord (store_node s id a now p).1 id
      = mergeRecord (getRecord s id) a now := by
  simp [store_node, h, getRecord]

theorem applyCalls_spec (s : DS) (id : Nat) (cs : List StoreCall)
    (h : s.available = true) :
    (applyCalls s id cs).available = true ∧
    getRecord (applyCalls s id cs) id
      = cs.foldl (fun r c => mergeRecord r c.args c.now) (getRecord s id) := by
  induction cs generalizing s with
  | nil => exact ⟨h, rfl⟩
  | cons c cs ih =>
    have hs := store_node_step s id c.args c.now c.putOk h
    have hrest := ih (store_node s id c.args c.now c.putOk).1 hs.1
    refine ⟨hrest.1, ?_⟩
    show getRecord (applyCalls (store_node s id c.args c.now c.putOk).1 id cs) id = _
    rw [hrest.2, hs.2]
    rfl

theorem foldl_merge_proj {α : Type} (p : NodeRecord → Option α)
    (q : StoreArgs → Option α)
    (hpq : ∀ r a now, p (mergeRecord r a now) = mergeField (p r) (q a))
    (r0 : NodeRecord) (cs : List StoreCall) :
    p (cs.foldl (fun r c => mergeRecord r c.args c.now) r0)
      = mergeField (p r0) (lastSupplied (cs.map fun c => q c.args)) := by
  induction cs generalizing r0 with
  | nil => rfl
  | cons c cs ih =>
    show p (cs.foldl _ (mergeRecord r0 c.args c.now)) = _
    rw [ih, hpq]
    have h2 : lastSupplied ((c :: cs).map fun c => q c.args)
        = mergeField (mergeField none (q c.args))
            (lastSupplied (cs.map fun c => q c.args)) := by
      show List.foldl mergeField (mergeField none (q c.args)) _ = _
      rw [foldl_mergeField]
    rw [h2, mergeField_mergeField]

/-! ## Concrete fixtures used by witnesses and counterexamples -/

def opsId : CipherOps := ⟨fun _ _ d => d⟩

def dsUp : DS := ⟨true, fun _ => none⟩

def dsDown : DS := ⟨false, fun _ => none⟩

def argsShort : StoreArgs := ⟨some "BB01", none, none, none, none, none, none⟩

def callA : StoreCall :=
  ⟨⟨some "BB01", none, none, none, none, none, some "battery"⟩, 5, true⟩

def callB : StoreCall :=
  ⟨⟨none, some "Big Bird", none, none, some 24, none, none⟩, 6, false⟩

/-! ## Claims -/

/-- C1: merge monotonicity of the node-state upsert. After any sequence
of store_node calls for a node (the durable client being available),
each mergeable field of the cached record equals the last non-null value
supplied for that field across the sequence, and keeps its prior value
when every call left the field absent: absent fields never erase known
values. -/
theorem c1_merge_monotonicity (s : DS) (id : Nat) (cs : List StoreCall)
    (h : s.available = true) :
    (getRecord (applyCalls s id cs) id).shortname
      = mergeField (getRecord s id).shortname
          (lastSupplied (cs.map fun c => c.args.shortname)) ∧
    (getRecord (applyCalls s id cs) id).longname
      = mergeField (getRecord s id).longname
          (lastSupplied (cs.map fun c => c.args.longname)) ∧
    (getRecord (applyCalls s id cs) id).latitude
      = mergeField (getRecord s id).latitude
          (lastSupplied (cs.map fun c => c.args.latitude)) ∧
    (getRecord (applyCalls s id cs) id).longitude
      = mergeField (getRecord s id).longitude
          (lastSupplied (cs.map fun c => c.args.longitude)) ∧
    (getRecord (applyCalls s id cs) id).last_known_voltage
      = mergeField (getRecord s id).last_known_voltage
          (lastSupplied (cs.map fun c => c.args.voltage)) ∧
    (getRecord (applyCalls s id cs) id).last_known_battery_percent
      = mergeField (getRecord s id).last_known_battery_percent
          (lastSupplied (cs.map fun c => c.args.battery_percent)) := by
  have hA := applyCalls_spec s id cs h
  rw [hA.2]
  exact ⟨foldl_merge_proj (fun r => r.shortname) (fun a => a.shortname)
          (fun _ _ _ => rfl) _ _,
        foldl_merge_proj (fun r => r.longname) (fun a => a.longname)
          (fun _ _ _ => rfl) _ _,
        foldl_merge_proj (fun r => r.latitude) (fun a => a.latitude)
          (fun _ _ _ => rfl) _ _,
        foldl_merge_proj (fun r => r.longitude) (fun a => a.longitude)
          (fun _ _ _ => rfl) _ _,
        foldl_merge_proj (fun r => r.last_known_voltage) (fun a => a.voltage)
          (fun _ _ _ => rfl) _ _,
        foldl_merge_proj (fun r => r.last_known_battery_percent)
          (fun a => a.battery_percent) (fun _ _ _ => rfl) _ _⟩

/-- C1 witness: the merge law evaluated on a two-call sequence in which
the first call supplies a shortname and the second supplies a longname
and a voltage but no shortname. -/
theorem c1_merge_monotonicity_witness :
    dsUp.available = true ∧
    ((getRecord (applyCalls dsUp 42 [callA, callB]) 42).shortname
      = mergeField (getRecord dsUp 42).shortname
          (lastSupplied ([callA, callB].map fun c => c.args.shortname)) ∧
    (getRecord (applyCalls dsUp 42 [callA, callB]) 42).longname
      = mergeField (getRecord dsUp 42).longname
          (lastSupplied ([callA, callB].map fun c => c.args.longname)) ∧
    (getRecord (applyCalls dsUp 42 [callA, callB]) 42).latitude
      = mergeField (getRecord dsUp 42).latitude
          (lastSupplied ([callA, callB].map fun c => c.args.latitude)) ∧
    (getRecord (applyCalls dsUp 42 [callA, callB]) 42).longitude
      = mergeField (getRecord dsUp 42).longitude
          (lastSupplied ([callA, callB].map fun c => c.args.longitude)) ∧
    (getRecord (applyCalls dsUp 42 [callA, callB]) 42).last_known_voltage
      = mergeField (getRecord dsUp 42).last_known_voltage
          (lastSupplied ([callA, callB].map fun c => c.args.voltage)) ∧
    (getRecord (applyCalls dsUp 42 [callA, callB]) 42).last_known_battery_percent
      = mergeField (getRecord dsUp 42).last_known_battery_percent
          (lastSupplied ([callA, callB].map fun c => c.args.battery_percent))) :=
  ⟨rfl, c1_merge_monotonicity dsUp 42 [callA, callB] rfl⟩

/-- C2 counterexample: at ground_track = 2250000 the heading is 22.5
degrees, the implementation truncates (22.5 + 11.25) / 22.5 = 1.5 down
to bucket 1 ("NNE"), while the round-based index of the claim gives
bucket 2 ("NE"). -/
theorem c2_counterexample :
    headingInfo 2250000 = some (45 / 2, "NNE") ∧
    headingIndexSpec (45 / 2) = 2 ∧
    directions.getD 2 "" = "NE" ∧
    ("NNE" : String) ≠ "NE" := by
  have hq : (((2250000 : ℕ)) : ℚ) / 100000 = 45 / 2 := by norm_num
  have harg : ((45 : ℚ) / 2 + 45 / 4) / (45 / 2) = 3 / 2 := by norm_num
  have hfl : ⌊((45 : ℚ) / 2 + 45 / 4) / (45 / 2)⌋ = 1 := by
    rw [harg]
    norm_num
  have hrd : round (((45 : ℚ) / 2 + 45 / 4) / (45 / 2)) = 2 := by
    rw [harg, round_eq]
    norm_num
  refine ⟨?_, ?_, rfl, by decide⟩
  · simp only [headingInfo]
    rw [if_pos (by norm_num), hq, hfl]
    rfl
  · simp only [headingIndexSpec]
    rw [hrd]
    rfl

/-- C2 amended: for every position payload with ground_track > 0, the
heading in degrees is ground_track scaled by 1e-5, and the compass
direction is the 16-direction table entry at index
floor((degrees + 11.25) / 22.5) mod 16 (truncation, not rounding); that
index is below 16 and the resulting direction is an entry of the table. -/
theorem c2_heading_bucketing (gt : Nat) (h : 0 < gt) :
    headingInfo gt
      = some ((gt : ℚ) / 100000,
          directions.getD
            ((Int.toNat ⌊((gt : ℚ) / 100000 + 45 / 4) / (45 / 2)⌋) % 16) "") ∧
    (Int.toNat ⌊((gt : ℚ) / 100000 + 45 / 4) / (45 / 2)⌋) % 16 < 16 ∧
    directions.getD
      ((Int.toNat ⌊((gt : ℚ) / 100000 + 45 / 4) / (45 / 2)⌋) % 16) ""
      ∈ directions := by
  have hlt : (Int.toNat ⌊((gt : ℚ) / 100000 + 45 / 4) / (45 / 2)⌋) % 16 < 16 :=
    Nat.mod_lt _ (by norm_num)
  have hlen : (Int.toNat ⌊((gt : ℚ) / 100000 + 45 / 4) / (45 / 2)⌋) % 16
      < directions.length := by
    simpa [directions] using hlt
  refine ⟨by simp [headingInfo, h], hlt, ?_⟩
  rw [List.getD_eq_getElem directions "" hlen]
  exact List.getElem_mem hlen

/-- C2 witness: the amended bucketing evaluated at ground_track 2250000. -/
theorem c2_heading_bucketing_witness :
    0 < 2250000 ∧
    (headingInfo 2250000
      = some ((2250000 : ℚ) / 100000,
          directions.getD
            ((Int.toNat ⌊((2250000 : ℚ) / 100000 + 45 / 4) / (45 / 2)⌋) % 16) "") ∧
    (Int.toNat ⌊((2250000 : ℚ) / 100000 + 45 / 4) / (45 / 2)⌋) % 16 < 16 ∧
    directions.getD
      ((Int.toNat ⌊((2250000 : ℚ) / 100000 + 45 / 4) / (45 / 2)⌋) % 16) ""
      ∈ directions) :=
  ⟨by decide, c2_heading_bucketing 2250000 (by decide)⟩

/-- C3 counterexample: a 2-byte key in the keyring raises inside
decrypt_meshtastic_packet, and try_decrypt silently skips it and goes on
to succeed with the next (1-byte) key; nothing is fatal. -/
theorem c3_counterexample :
    decrypt_meshtastic_packet opsId [0, 0] [1, 2, 3] 7 9
      = Except.error "Unsupported key length" ∧
    try_decrypt opsId [[0, 0], [5]] [1, 2, 3] 7 9 = some [4, 7, 6] := by
  exact ⟨rfl, rfl⟩

/-- C3 amended: a key whose length is not 1, 16, or 32 bytes makes
decrypt_meshtastic_packet fail with a DecryptionError, which try_decrypt
catches and silently treats as just another failed key, moving on to the
remaining keys; no startup validation of key lengths exists and nothing
is fatal. -/
theorem c3_key_length_skipped (ops : CipherOps) (key : List Nat)
    (rest : List (List Nat)) (data : List Nat) (pid fn : Nat)
    (h16 : key.length ≠ 16) (h32 : key.length ≠ 32) (h1 : key.length ≠ 1) :
    decrypt_meshtastic_packet ops key data pid fn
      = Except.error "Unsupported key length" ∧
    try_decrypt ops (key :: rest) data pid fn
      = try_decrypt ops rest data pid fn := by
  have hd : decrypt_meshtastic_packet ops key data pid fn
      = Except.error "Unsupported key length" := by
    simp [decrypt_meshtastic_packet, h16, h32, h1]
  exact ⟨hd, by simp [try_decrypt, hd]⟩

/-- C3 witness: the skip behaviour evaluated on a 2-byte key followed by
a 1-byte key. -/
theorem c3_key_length_skipped_witness :
    ([0, 0] : List Nat).length ≠ 16 ∧ ([0, 0] : List Nat).length ≠ 32 ∧
    ([0, 0] : List Nat).length ≠ 1 ∧
    (decrypt_meshtastic_packet opsId [0, 0] [1, 2, 3] 7 9
      = Except.error "Unsupported key length" ∧
    try_decrypt opsId ([0, 0] :: [[5]]) [1, 2, 3] 7 9
      = try_decrypt opsId [[5]] [1, 2, 3] 7 9) :=
  ⟨by decide, by decide, by decide,
    c3_key_length_skipped opsId [0, 0] [[5]] [1, 2, 3] 7 9
      (by decide) (by decide) (by decide)⟩

/-- C4 counterexample: with the durable client unavailable, store_node
returns early and the supplied non-null shortname is not merged into the
cache; the node has no cached record at all afterwards. -/
theorem c4_counterexample :
    argsShort.shortname = some "BB01" ∧
    (store_node dsDown 42 argsShort 100 true).1.cache 42 = none := by
  exact ⟨rfl, rfl⟩

/-- C4 amended: when the durable client is available, every store_node
call merges the supplied non-null fields into the in-memory cache and
returns the write-through outcome without propagating any exception,
even when the write-through fails; when the client is unavailable,
store_node returns False without updating the cache. -/
theorem c4_degraded_mode (s : DS) (id : Nat) (a : StoreArgs) (now : Nat)
    (putOk : Bool) :
    (s.available = true →
      (store_node s id a now putOk).1.cache id
        = some (mergeRecord (getRecord s id) a now) ∧
      (store_node s id a now putOk).2 = putOk) ∧
    (s.available = false → store_node s id a now putOk = (s, false)) := by
  constructor
  · intro h
    simp [store_node, h]
  · intro h
    simp [store_node, h]

/-- C4 witness: a failing write-through (putOk = false) on an available
client still updates the cache and surfaces only a False return. -/
theorem c4_degraded_mode_witness :
    (store_node dsUp 7 argsShort 100 false).1.cache 7
      = some (mergeRecord (getRecord dsUp 7) argsShort 100) ∧
    (store_node dsUp 7 argsShort 100 false).2 = false :=
  (c4_degraded_mode dsUp 7 argsShort 100 false).1 rfl

/-- C5: a decoded packet whose portnum is NODEINFO_APP passes
should_process_packet for every filter state, whether or not the sender
is admitted or known. -/
theorem c5_nodeinfo_always_passes (f : NodeFilter) (fromN pid : Nat)
    (payload : List Nat) :
    should_process_packet f
      ⟨fromN, pid, PayloadVariant.decoded NODEINFO_APP payload⟩ = true := by
  simp [should_process_packet]

/-- C5 witness: a NODEINFO packet from an unknown node passes the empty
filter. -/
theorem c5_nodeinfo_always_passes_witness :
    should_process_packet (initFilter fun _ => false)
      ⟨1, 2, PayloadVariant.decoded NODEINFO_APP []⟩ = true :=
  c5_nodeinfo_always_passes (initFilter fun _ => false) 1 2 []

/-- C6: starting from the empty filter, any sequence of
update_node_shortname calls leaves the filter in a state where the
admitted set is contained in the keys of the shortname map and a node is
admitted exactly when its currently recorded shortname matches the
pattern. -/
theorem c6_filter_state_invariant (m : String → Bool)
    (us : List (Nat × String)) :
    FilterInvariant (applyUpdates (initFilter m) us) := by
  have hstep : ∀ (f : NodeFilter) (nid : Nat) (sn : String),
      FilterInvariant f → FilterInvariant (update_node_shortname f nid sn).1 := by
    intro f nid sn hf id
    by_cases hid : id = nid
    · subst hid
      constructor
      · intro _
        simp [update_node_shortname]
      · constructor
        · intro hm
          simp only [update_node_shortname, if_pos rfl] at hm ⊢
          exact ⟨sn, rfl, hm⟩
        · rintro ⟨s, hs, hms⟩
          simp only [update_node_shortname, if_pos rfl] at hs ⊢
          cases hs
          exact hms
    · have hbase := hf id
      constructor
      · intro h
        simp only [update_node_shortname, if_neg hid] at h ⊢
        exact hbase.1 h
      · simp only [update_node_shortname, if_neg hid]
        exact hbase.2
  have hall : ∀ (vs : List (Nat × String)) (f : NodeFilter),
      FilterInvariant f → FilterInvariant (applyUpdates f vs) := by
    intro vs
    induction vs with
    | nil => exact fun f hf => hf
    | cons u t ih => exact fun f hf => ih _ (hstep f u.1 u.2 hf)
  refine hall us (initFilter m) ?_
  intro id
  constructor
  · intro h
    simp [initFilter] at h
  · simp [initFilter]

/-- C6 witness: the invariant evaluated after two updates, one matching
and one not. -/
theorem c6_filter_state_invariant_witness :
    FilterInvariant
      (applyUpdates (initFilter fun s => s == "BB01")
        [(1, "BB01"), (2, "XX07")]) :=
  c6_filter_state_invariant (fun s => s == "BB01") [(1, "BB01"), (2, "XX07")]

/-- C7: for every packet_id and from_node representable in 8 bytes, the
nonce used with a 16-byte key is packet_id as 8 little-endian bytes
concatenated with from_node as 8 little-endian bytes: it has 16 bytes,
its two halves decode back to packet_id and from_node, and at
packet_id = 1, from_node = 0x1234 it equals
01 00 00 00 00 00 00 00 34 12 00 00 00 00 00 00. -/
theorem c7_nonce_determinism :
    (∀ pid fn : Nat, pid < 2 ^ 64 → fn < 2 ^ 64 →
      nonce16 pid fn = toBytesLE 8 pid ++ toBytesLE 8 fn ∧
      (nonce16 pid fn).length = 16 ∧
      fromBytesLE ((nonce16 pid fn).take 8) = pid ∧
      fromBytesLE ((nonce16 pid fn).drop 8) = fn) ∧
    nonce16 1 0x1234
      = [0x01, 0, 0, 0, 0, 0, 0, 0, 0x34, 0x12, 0, 0, 0, 0, 0, 0] := by
  constructor
  · intro pid fn hp hf
    have hbound : (2 : ℕ) ^ 64 = 256 ^ 8 := by norm_num
    have hlp : (toBytesLE 8 pid).length = 8 := toBytesLE_length 8 pid
    have htake : (nonce16 pid fn).take 8 = toBytesLE 8 pid := by
      calc (nonce16 pid fn).take 8
          = (toBytesLE 8 pid ++ toBytesLE 8 fn).take (toBytesLE 8 pid).length := by
            rw [hlp]; rfl
        _ = toBytesLE 8 pid := List.take_left _ _
    have hdrop : (nonce16 pid fn).drop 8 = toBytesLE 8 fn := by
      calc (nonce16 pid fn).drop 8
          = (toBytesLE 8 pid ++ toBytesLE 8 fn).drop (toBytesLE 8 pid).length := by
            rw [hlp]; rfl
        _ = toBytesLE 8 fn := List.drop_left _ _
    refine ⟨rfl, ?_, ?_, ?_⟩
    · simp [nonce16, toBytesLE_length]
    · rw [htake]
      exact fromBytesLE_toBytesLE 8 pid (hbound ▸ hp)
    · rw [hdrop]
      exact fromBytesLE_toBytesLE 8 fn (hbound ▸ hf)
  · decide

/-- C7 witness: the nonce law evaluated at packet_id = 1,
from_node = 0x1234. -/
theorem c7_nonce_determinism_witness :
    (1 : Nat) < 2 ^ 64 ∧ (0x1234 : Nat) < 2 ^ 64 ∧
    (nonce16 1 0x1234 = toBytesLE 8 1 ++ toBytesLE 8 0x1234 ∧
      (nonce16 1 0x1234).length = 16 ∧
      fromBytesLE ((nonce16 1 0x1234).take 8) = 1 ∧
      fromBytesLE ((nonce16 1 0x1234).drop 8) = 0x1234) :=
  ⟨by decide, by decide,
    c7_nonce_determinism.1 1 0x1234 (by decide) (by decide)⟩

/-- C8: decrypting twice with the same 1-byte key is the identity: for
every byte string, key byte, and packet ids and node ids (which the
1-byte branch ignores), XOR-ing each byte with the key twice returns the
original string. -/
theorem c8_xor_roundtrip (ops : CipherOps) (k : Nat) (data : List Nat)
    (p1 f1 p2 f2 : Nat) :
    (decrypt_meshtastic_packet ops [k] data p1 f1).bind
      (fun d => decrypt_meshtastic_packet ops [k] d p2 f2)
      = Except.ok data := by
  have h1 : ∀ (d : List Nat) (pi fi : Nat),
      decrypt_meshtastic_packet ops [k] d pi fi
        = Except.ok (d.map fun b => b ^^^ k) := by
    intro d pi fi
    rfl
  have hmap : ∀ l : List Nat,
      ((l.map fun b => b ^^^ k).map fun b => b ^^^ k) = l := by
    intro l
    induction l with
    | nil => rfl
    | cons a t ih => simp [ih, Nat.xor_assoc]
  rw [h1, show ∀ (a : List Nat) (g : List Nat → Except String (List Nat)),
      (Except.ok a).bind g = g a from fun _ _ => rfl, h1, hmap]

/-- C8 witness: the round-trip evaluated on the bytes 1, 2, 3 with the
key byte 5. -/
theorem c8_xor_roundtrip_witness :
    (decrypt_meshtastic_packet opsId [5] [1, 2, 3] 10 11).bind
      (fun d => decrypt_meshtastic_packet opsId [5] d 12 13)
      = Except.ok [1, 2, 3] :=
  c8_xor_roundtrip opsId 5 [1, 2, 3] 10 11 12 13

/-- C9: with the client available, a store_node call with
timestamp_type battery refreshes only last_seen_battery, a call with
timestamp_type location refreshes only last_seen_location, and a call
with any other timestamp_type refreshes only last_seen; the other two
timestamps keep their previous values in each case. -/
theorem c9_timestamp_selection (s : DS) (id : Nat) (a : StoreArgs)
    (now : Nat) (putOk : Bool) (h : s.available = true) :
    (a.timestamp_type = some "battery" →
      (getRecord (store_node s id a now putOk).1 id).last_seen_battery
        = some now ∧
      (getRecord (store_node s id a now putOk).1 id).last_seen_location
        = (getRecord s id).last_seen_location ∧
      (getRecord (store_node s id a now putOk).1 id).last_seen
        = (getRecord s id).last_seen) ∧
    (a.timestamp_type = some "location" →
      (getRecord (store_node s id a now putOk).1 id).last_seen_location
        = some now ∧
      (getRecord (store_node s id a now putOk).1 id).last_seen_battery
        = (getRecord s id).last_seen_battery ∧
      (getRecord (store_node s id a now putOk).1 id).last_seen
        = (getRecord s id).last_seen) ∧
    (a.timestamp_type ≠ some "battery" → a.timestamp_type ≠ some "location" →
      (getRecord (store_node s id a now putOk).1 id).last_seen = some now ∧
      (getRecord (store_node s id a now putOk).1 id).last_seen_battery
        = (getRecord s id).last_seen_battery ∧
      (getRecord (store_node s id a now putOk).1 id).last_seen_location
        = (getRecord s id).last_seen_location) := by
  have hr := (store_node_step s id a now putOk h).2
  rw [hr]
  refine ⟨?_, ?_, ?_⟩
  · intro hb
    simp [mergeRecord, hb]
  · intro hl
    have hnb : ¬ ((("location" : String)) = "battery") := by decide
    simp [mergeRecord, hl, hnb]
  · intro hb hl
    simp [mergeRecord, hb, hl]

/-- C9 witness: the battery case evaluated on a concrete call. -/
theorem c9_timestamp_selection_witness :
    dsUp.available = true ∧
    callA.args.timestamp_type = some "battery" ∧
    ((getRecord (store_node dsUp 3 callA.args 100 true).1 3).last_seen_battery
      = some 100 ∧
    (getRecord (store_node dsUp 3 callA.args 100 true).1 3).last_seen_location
      = (getRecord dsUp 3).last_seen_location ∧
    (getRecord (store_node dsUp 3 callA.args 100 true).1 3).last_seen
      = (getRecord dsUp 3).last_seen) :=
  ⟨rfl, rfl, (c9_timestamp_selection dsUp 3 callA.args 100 true rfl).1 rfl⟩

/-- C10: the telemetry handler stores power metrics exactly when the
sender is currently admitted and the extracted channel-1 voltage is
present and strictly greater than 20; telemetry whose voltage is at most
20, or which has no channel-1 voltage (even when a channel-2 battery
value is present), is never stored. -/
theorem c10_telemetry_threshold (f : NodeFilter) (n : Nat) (t : Telemetry) :
    (handle_telemetry f n t ≠ none ↔
      is_node_allowed f n = true ∧
      ∃ v, (extract_power_metrics t).1 = some v ∧ 20 < v) ∧
    (∀ v, (extract_power_metrics t).1 = some v → v ≤ 20 →
      handle_telemetry f n t = none) ∧
    ((extract_power_metrics t).1 = none → handle_telemetry f n t = none) := by
  have hlet : handle_telemetry f n t
      = (if is_node_allowed f n = false then none
         else match (extract_power_metrics t).1 with
           | some v =>
             if v > 20 then
               some ⟨none, none, none, none, some v,
                     (extract_power_metrics t).2, some "battery"⟩
             else none
           | none => none) := rfl
  cases hA : is_node_allowed f n with
  | false =>
    have h0 : handle_telemetry f n t = none := by
      rw [hlet, hA]
      simp
    simp [h0, hA]
  | true =>
    cases hv : (extract_power_metrics t).1 with
    | none =>
      have h0 : handle_telemetry f n t = none := by
        rw [hlet, hA, hv]
        simp
      simp [h0, hv]
    | some v =>
      by_cases h20 : v > 20
      · have h0 : handle_telemetry f n t
            = some ⟨none, none, none, none, some v,
                    (extract_power_metrics t).2, some "battery"⟩ := by
          rw [hlet, hA, hv]
          simp [h20]
        refine ⟨?_, ?_, ?_⟩
        · constructor
          · intro _
            exact ⟨rfl, v, rfl, h20⟩
          · intro _
            rw [h0]
            simp
        · intro w hw hle
          obtain rfl : v = w := by injection hw
          exact absurd h20 (not_lt.mpr hle)
        · intro hn
          exact Option.noConfusion hn
      · have h0 : handle_telemetry f n t = none := by
          rw [hlet, hA, hv]
          simp [h20]
        refine ⟨?_, fun w hw hle => h0, fun _ => h0⟩
        constructor
        · intro hne
          exact absurd h0 hne
        · rintro ⟨-, w, hw, h20w⟩
          obtain rfl : v = w := by injection hw
          exact absurd h20w h20

/-- C10 witness: the threshold decision evaluated on an admitted node
with a channel-1 voltage of 24. -/
theorem c10_telemetry_threshold_witness :
    handle_telemetry ⟨fun _ => true, fun _ => some "BB01", fun _ => true⟩ 1
        ⟨some ⟨some 24, some (7 / 10)⟩⟩ ≠ none ↔
      is_node_allowed ⟨fun _ => true, fun _ => some "BB01", fun _ => true⟩ 1
          = true ∧
      ∃ v, (extract_power_metrics ⟨some ⟨some 24, some (7 / 10)⟩⟩).1 = some v ∧
        20 < v :=
  (c10_telemetry_threshold ⟨fun _ => true, fun _ => some "BB01", fun _ => true⟩
    1 ⟨some ⟨some 24, some (7 / 10)⟩⟩).1
